import Mathlib

/-!
Verification of the email-ingestion service: a shallow embedding of the
account/OAuth lifecycle and the message ingestion pipeline of the Go
backend (packages services, store, handlers, models), with theorems
settling the specification claims about it.

Conventions of the embedding:
* machine integers and timestamps are `Nat`; Mongo ObjectIDs are `Nat`;
* the document stores are lists of records; `none` models Go `nil`;
* outbound HTTP calls (token exchange, user-info, message fetch) are
  oracle functions supplied as arguments, mirroring the data the Go code
  reads off the wire;
* Go strings in the flows under study are ASCII, so Go byte indexing and
  Lean character indexing agree and `string(bytes)` is the byte-to-char map.
-/

namespace EmailHarvester

/-! ## ASCII / list-of-char helpers -/

/-- Lower-cases one ASCII character (Go strings.ToLower on ASCII input). -/
def lowerChar (c : Char) : Char :=
  if 65 ≤ c.toNat ∧ c.toNat ≤ 90 then Char.ofNat (c.toNat + 32) else c

/-- Lower-cases an ASCII string. -/
def lowerStr (s : String) : String :=
  String.mk (s.data.map lowerChar)

/-- Boolean test that list `p` is an initial segment of list `s`. -/
def startsWithL (p s : List Char) : Bool :=
  match p, s with
  | [], _ => true
  | _ :: _, [] => false
  | a :: p', b :: s' => a = b && startsWithL p' s'

/-- Boolean test that `p` occurs as a contiguous run inside `s`. -/
def containsL (s p : List Char) : Bool :=
  startsWithL p s ||
    match s with
    | [] => false
    | _ :: t => containsL t p

/-- Case-sensitive substring test on strings (Cosmos SQL CONTAINS). -/
def containsStr (s p : String) : Bool :=
  containsL s.data p.data

/-- Case-insensitive substring test on strings: the semantics of a MongoDB
filter of the shape regex pattern with option i, for patterns that are
plain literals without regex metacharacters (every pattern exercised by
the claims is such a literal). -/
def containsCI (s p : String) : Bool :=
  containsL (lowerStr s).data (lowerStr p).data

/-! ## Data model (backend/internal/models/models.go) -/

/-- Mongo ObjectID, abstracted to a number. -/
abbrev ObjectId := Nat

/-- Email account record (models.Account). -/
structure Account where
  id : ObjectId
  provider : String
  email : String
  accessToken : String
  refreshToken : String
  tokenExpiry : Nat
  createdAt : Nat
  updatedAt : Nat
  deriving Repr, DecidableEq

/-- Named entity extracted from an email (models.NEREntity). -/
structure NEREntity where
  text : String
  type : String
  startPos : Nat
  endPos : Nat
  deriving Repr, DecidableEq

/-- Email message record (models.Email). -/
structure Email where
  id : ObjectId
  accountID : ObjectId
  messageID : String
  threadID : String
  fromAddr : String
  toRecips : List String
  cc : List String
  bcc : List String
  subject : String
  body : String
  htmlBody : String
  summary : String
  entities : List NEREntity
  labels : List String
  read : Bool
  starred : Bool
  receivedAt : Nat
  createdAt : Nat
  updatedAt : Nat
  deriving Repr, DecidableEq

/-- The all-zero email value (Go zero value of models.Email). -/
def Email.zero : Email :=
  { id := 0, accountID := 0, messageID := "", threadID := "", fromAddr := ""
    toRecips := [], cc := [], bcc := [], subject := "", body := "", htmlBody := ""
    summary := "", entities := [], labels := [], read := false
    starred := false, receivedAt := 0, createdAt := 0, updatedAt := 0 }

/-- Filter criteria for listing emails (models.EmailFilter); Go pointer
fields become `Option`, a `none` meaning the Go nil pointer / absent
filter field (and for the Cosmos variant, the zero value). -/
structure EmailFilter where
  accountID : Option ObjectId
  fromAddr : Option String
  toRecip : Option String
  subject : Option String
  label : Option String
  read : Option Bool
  starred : Option Bool
  startDate : Option Nat
  endDate : Option Nat
  deriving Repr, DecidableEq

/-- The filter with every field absent. -/
def EmailFilter.empty : EmailFilter :=
  { accountID := none, fromAddr := none, toRecip := none, subject := none
    label := none, read := none, starred := none
    startDate := none, endDate := none }

/-- OAuth token bundle as held by golang.org/x/oauth2 (oauth2.Token). -/
structure OToken where
  accessToken : String
  refreshToken : String
  expiry : Nat
  deriving Repr, DecidableEq

/-! ## MongoDB store (backend/internal/store/mongodb.go)

The emails collection is a list of Email rows; inserts append.  The Go
methods take the current wall-clock reading and the ObjectID the driver
would mint as explicit arguments. -/

/-- GetEmailByMessageID: first stored row of the account with the given
provider-native message id, or `none` (mongo.ErrNoDocuments becomes the
nil, nil return). -/
def getEmailByMessageID (db : List Email) (accountID : ObjectId)
    (messageID : String) : Option Email :=
  db.find? (fun e => e.accountID = accountID ∧ e.messageID = messageID)

/-- CreateEmail: stamps created/updated with the current time, inserts,
and reports the minted id back on the row. -/
def createEmail (db : List Email) (now : Nat) (newId : ObjectId)
    (e : Email) : List Email :=
  db ++ [{ e with createdAt := now, updatedAt := now, id := newId }]

/-- GetAccountByEmail: first account with the given address, else `none`. -/
def getAccountByEmail (db : List Account) (email : String) : Option Account :=
  db.find? (fun a => a.email = email)

/-- CreateAccount: stamps created/updated and inserts; mongodb.go performs
no uniqueness check of its own and no code path reaching this store
creates a unique index. -/
def createAccount (db : List Account) (now : Nat) (newId : ObjectId)
    (a : Account) : List Account :=
  db ++ [{ a with createdAt := now, updatedAt := now, id := newId }]

/-- UpdateAccount: sets only the token fields and updated-at on the row
with the matching id. -/
def updateAccount (db : List Account) (now : Nat) (a : Account) :
    List Account :=
  db.map (fun r =>
    if r.id = a.id then
      { r with accessToken := a.accessToken, refreshToken := a.refreshToken
               tokenExpiry := a.tokenExpiry, updatedAt := now }
    else r)

/-! ## Ingestion pipeline (EmailService in backend/internal/monitoring/monitoring.go) -/

/-- Modelled from the spec: the missing dedup-lookup convention of the
MongoDBStore type.  EmailService holds a store of type MongoDBStore whose
implementation is absent from the source tree (only callers exist); the
source's MongoStore has an incompatible type and returns a nil error even
when no row matches.  Spec section 4.1 makes "not found" an outcome
distinct from errors that callers can test for, so the ingestion loop's
Go test err == nil means exactly "a stored row matches the dedup key". -/
def emailExists (db : List Email) (accountID : ObjectId)
    (messageID : String) : Bool :=
  (getEmailByMessageID db accountID messageID).isSome

/-- One Outlook message as decoded from the Graph $top=50 listing response
in fetchOutlookEmails (the anonymous result struct). -/
structure OutlookMsg where
  id : String
  subject : String
  fromAddr : String
  toRecipients : List String
  ccRecipients : List String
  bccRecipients : List String
  receivedDateTime : Nat
  bodyContent : String
  bodyContentType : String
  deriving Repr, DecidableEq

/-- fetchOutlookEmails: walks the fetched list; a message whose dedup key
already has a stored row is skipped, any other is mapped to the canonical
Email shape (body or htmlBody according to the reported content type) and
inserted.  Returns the final emails collection and the next fresh id. -/
def fetchOutlookEmails (account : Account) (msgs : List OutlookMsg)
    (db : List Email) (now : Nat) (nextId : ObjectId) :
    List Email × ObjectId :=
  msgs.foldl (fun acc msg =>
    if emailExists acc.1 account.id msg.id then acc
    else
      let e : Email :=
        { Email.zero with
          accountID := account.id
          messageID := msg.id
          fromAddr := msg.fromAddr
          subject := msg.subject
          receivedAt := msg.receivedDateTime
          createdAt := now
          updatedAt := now
          toRecips := msg.toRecipients
          cc := msg.ccRecipients
          bcc := msg.bccRecipients
          htmlBody := if msg.bodyContentType = "html" then msg.bodyContent else ""
          body := if msg.bodyContentType = "html" then "" else msg.bodyContent }
      (createEmail acc.1 now acc.2 e, acc.2 + 1))
    (db, nextId)

/-- C1.  An ingestion pass over an account for which the provider returns a
message already stored under the dedup key "m1" and a new message "m2"
creates exactly one new Email row, carrying the account's id and message
id "m2"; the stored message is skipped, not duplicated. -/
theorem fetchOutlook_creates_only_new (account : Account) (db : List Email)
    (m1 m2 : OutlookMsg) (now nid : Nat)
    (hid1 : m1.id = "m1") (hid2 : m2.id = "m2")
    (h1 : emailExists db account.id "m1" = true)
    (h2 : getEmailByMessageID db account.id "m2" = none) :
    ∃ e : Email,
      fetchOutlookEmails account [m1, m2] db now nid = (db ++ [e], nid + 1) ∧
      e.accountID = account.id ∧ e.messageID = "m2" := by
  have h2' : emailExists db account.id "m2" = false := by
    simp [emailExists, h2]
  refine ⟨{ Email.zero with
      accountID := account.id, messageID := m2.id, fromAddr := m2.fromAddr
      subject := m2.subject, receivedAt := m2.receivedDateTime
      createdAt := now, updatedAt := now, id := nid
      toRecips := m2.toRecipients, cc := m2.ccRecipients
      bcc := m2.bccRecipients
      htmlBody := if m2.bodyContentType = "html" then m2.bodyContent else ""
      body := if m2.bodyContentType = "html" then "" else m2.bodyContent },
    ?_, rfl, hid2⟩
  simp only [fetchOutlookEmails, List.foldl, hid1, hid2, h1, h2',
    if_true, if_false, Bool.false_eq_true, createEmail]

/-- Witness for C1: the theorem applied at a one-row store holding "m1" and
a provider batch of "m1" and "m2". -/
theorem fetchOutlook_creates_only_new_witness :
    ∃ e : Email,
      fetchOutlookEmails
        { id := 7, provider := "outlook", email := "u@outlook.com"
          accessToken := "a", refreshToken := "r", tokenExpiry := 50
          createdAt := 1, updatedAt := 1 }
        [{ id := "m1", subject := "s1", fromAddr := "x@y.com"
           toRecipients := ["u@outlook.com"], ccRecipients := []
           bccRecipients := [], receivedDateTime := 10
           bodyContent := "b1", bodyContentType := "text" },
         { id := "m2", subject := "s2", fromAddr := "x@y.com"
           toRecipients := ["u@outlook.com"], ccRecipients := []
           bccRecipients := [], receivedDateTime := 11
           bodyContent := "b2", bodyContentType := "html" }]
        [{ Email.zero with id := 1, accountID := 7, messageID := "m1" }]
        99 2
      = ([{ Email.zero with id := 1, accountID := 7, messageID := "m1" }] ++ [e],
         3) ∧
      e.accountID = 7 ∧ e.messageID = "m2" :=
  fetchOutlook_creates_only_new
    { id := 7, provider := "outlook", email := "u@outlook.com"
      accessToken := "a", refreshToken := "r", tokenExpiry := 50
      createdAt := 1, updatedAt := 1 }
    [{ Email.zero with id := 1, accountID := 7, messageID := "m1" }]
    { id := "m1", subject := "s1", fromAddr := "x@y.com"
      toRecipients := ["u@outlook.com"], ccRecipients := []
      bccRecipients := [], receivedDateTime := 10
      bodyContent := "b1", bodyContentType := "text" }
    { id := "m2", subject := "s2", fromAddr := "x@y.com"
      toRecipients := ["u@outlook.com"], ccRecipients := []
      bccRecipients := [], receivedDateTime := 11
      bodyContent := "b2", bodyContentType := "html" }
    99 2 rfl rfl (by decide) (by decide)

/-! ## OAuth service, second services/oauth.go variant
(GetAuthURL / HandleCallback / RefreshToken working on the MongoStore) -/

/-- Go slice expression s index len minus k colon: the last `k` characters
of `s`, or `none` when the start index len-k is negative, which in Go is a
slice-bounds panic.  Strings here are ASCII so byte and char counts agree. -/
def goTail (s : String) (k : Nat) : Option String :=
  if k ≤ s.length then some (String.mk (s.data.drop (s.length - k))) else none

/-- Outcome of the provider-from-email-domain switch in HandleCallback. -/
inductive InferOutcome where
  | ok (provider : String)
  | unsupported
  | panicked
  deriving Repr, DecidableEq

/-- HandleCallback's provider inference: compares fixed-length suffix
slices of the state-mapped email against the known domains, in source
order; a negative slice start is a panic.  (The first comparison slices
the last 10 bytes, the second the last 13, the third the last 12.) -/
def inferProvider (email : String) : InferOutcome :=
  match goTail email 10 with
  | none => .panicked
  | some s10 =>
    if s10 = "@gmail.com" then .ok "gmail"
    else
      match goTail email 13 with
      | none => .panicked
      | some s13 =>
        if s13 = "@outlook.com" then .ok "outlook"
        else
          match goTail email 12 with
          | none => .panicked
          | some s12 =>
            if s12 = "@hotmail.com" then .ok "outlook" else .unsupported

/-- Lookup in the in-memory states map (Go map[string]string read). -/
def findState : List (String × String) → String → Option String
  | [], _ => none
  | (k, v) :: t, st => if k = st then some v else findState t st

/-- Go map delete: removes the binding for the key. -/
def eraseState (l : List (String × String)) (st : String) :
    List (String × String) :=
  l.filter (fun p => decide (p.1 ≠ st))

/-- Go map insert: overwrites any existing binding for the key. -/
def insertState (l : List (String × String)) (st email : String) :
    List (String × String) :=
  (st, email) :: eraseState l st

/-- How a HandleCallback invocation ends. -/
inductive CbOutcome where
  | ok (a : Account)
  | err (msg : String)
  | panicked
  deriving Repr, DecidableEq

/-- Observable result of one HandleCallback call: its outcome, the
handshake-state map and accounts collection afterwards, and whether the
code-for-token exchange was attempted. -/
structure CbResult where
  outcome : CbOutcome
  states : List (String × String)
  accounts : List Account
  didExchange : Bool
  deriving Repr, DecidableEq

/-- Provider HTTP endpoints consulted by HandleCallback, as oracles:
the code-for-token exchange and the user-info email fetch. -/
structure CallbackOracle where
  exchange : String → Option OToken
  userEmail : String → OToken → Option String

/-- HandleCallback: verifies and deletes the state (single use), infers
the provider from the email's domain suffix, exchanges the code, fetches
and compares the authenticated email, then creates the account if the
email is unseen or overwrites its tokens otherwise. -/
def handleCallback (states : List (String × String))
    (accounts : List Account) (code st : String) (o : CallbackOracle)
    (now : Nat) (nextId : ObjectId) : CbResult :=
  match findState states st with
  | none => ⟨.err "invalid state", states, accounts, false⟩
  | some email =>
    let states' := eraseState states st
    match inferProvider email with
    | .panicked => ⟨.panicked, states', accounts, false⟩
    | .unsupported => ⟨.err "unsupported email domain", states', accounts, false⟩
    | .ok provider =>
      match o.exchange code with
      | none => ⟨.err "failed to exchange code", states', accounts, true⟩
      | some tok =>
        match o.userEmail provider tok with
        | none => ⟨.err "failed to get user email", states', accounts, true⟩
        | some userEmail =>
          if userEmail ≠ email then
            ⟨.err "email mismatch", states', accounts, true⟩
          else
            match getAccountByEmail accounts email with
            | none =>
              let a : Account :=
                { id := 0, provider := provider, email := email
                  accessToken := tok.accessToken
                  refreshToken := tok.refreshToken
                  tokenExpiry := tok.expiry, createdAt := 0, updatedAt := 0 }
              ⟨.ok { a with createdAt := now, updatedAt := now, id := nextId },
               states', createAccount accounts now nextId a, true⟩
            | some acct =>
              let a : Account :=
                { acct with accessToken := tok.accessToken
                            refreshToken := tok.refreshToken
                            tokenExpiry := tok.expiry }
              ⟨.ok { a with updatedAt := now },
               states', updateAccount accounts now a, true⟩

/-- A consumed state key is gone from the map. -/
theorem findState_eraseState (l : List (String × String)) (st : String) :
    findState (eraseState l st) st = none := by
  induction l with
  | nil => rfl
  | cons p t ih =>
    by_cases h : p.1 = st
    · simpa [eraseState, h] using ih
    · simpa [eraseState, List.filter, h, findState] using ih

/-- Whatever HandleCallback does after a successful state lookup, the
state binding has been deleted by the time it returns. -/
theorem handleCallback_states_of_found (states : List (String × String))
    (accounts : List Account) (code st : String) (o : CallbackOracle)
    (now : Nat) (nid : ObjectId) (e : String)
    (h : findState states st = some e) :
    (handleCallback states accounts code st o now nid).states =
      eraseState states st := by
  unfold handleCallback
  rw [h]
  dsimp only
  repeat' split
  all_goals rfl

/-- An unknown state fails immediately: invalid-state error, no exchange
attempted, no account written, map untouched. -/
theorem handleCallback_not_found (states : List (String × String))
    (accounts : List Account) (code st : String) (o : CallbackOracle)
    (now : Nat) (nid : ObjectId) (h : findState states st = none) :
    handleCallback states accounts code st o now nid =
      ⟨.err "invalid state", states, accounts, false⟩ := by
  unfold handleCallback
  rw [h]

/-- C2.  A handshake state is single use: once HandleCallback has looked a
state up successfully (whatever happens afterwards in that call), a second
call with the same state value fails with the invalid-state error, attempts
no token exchange, and leaves the accounts collection and the state map
exactly as the first call left them. -/
theorem handleCallback_state_single_use (states : List (String × String))
    (accounts : List Account) (code st : String) (o : CallbackOracle)
    (now : Nat) (nid : ObjectId) (e : String)
    (h : findState states st = some e) (code2 : String) (o2 : CallbackOracle)
    (now2 : Nat) (nid2 : ObjectId) :
    handleCallback (handleCallback states accounts code st o now nid).states
      (handleCallback states accounts code st o now nid).accounts
      code2 st o2 now2 nid2 =
    ⟨.err "invalid state",
     (handleCallback states accounts code st o now nid).states,
     (handleCallback states accounts code st o now nid).accounts,
     false⟩ := by
  apply handleCallback_not_found
  rw [handleCallback_states_of_found states accounts code st o now nid e h]
  exact findState_eraseState states st

/-- Witness for C2: a concrete first call consumes state "s1"; the second
call with "s1" fails with the invalid-state error and writes nothing. -/
theorem handleCallback_state_single_use_witness :
    handleCallback
      (handleCallback [("s1", "u@gmail.com")] [] "c" "s1"
        ⟨fun _ => some ⟨"at", "rt", 100⟩, fun _ _ => some "u@gmail.com"⟩
        5 1).states
      (handleCallback [("s1", "u@gmail.com")] [] "c" "s1"
        ⟨fun _ => some ⟨"at", "rt", 100⟩, fun _ _ => some "u@gmail.com"⟩
        5 1).accounts
      "c2" "s1" ⟨fun _ => none, fun _ _ => none⟩ 6 2 =
    ⟨.err "invalid state",
     (handleCallback [("s1", "u@gmail.com")] [] "c" "s1"
       ⟨fun _ => some ⟨"at", "rt", 100⟩, fun _ _ => some "u@gmail.com"⟩
       5 1).states,
     (handleCallback [("s1", "u@gmail.com")] [] "c" "s1"
       ⟨fun _ => some ⟨"at", "rt", 100⟩, fun _ _ => some "u@gmail.com"⟩
       5 1).accounts,
     false⟩ :=
  handleCallback_state_single_use [("s1", "u@gmail.com")] [] "c" "s1"
    ⟨fun _ => some ⟨"at", "rt", 100⟩, fun _ _ => some "u@gmail.com"⟩
    5 1 "u@gmail.com" rfl "c2" ⟨fun _ => none, fun _ _ => none⟩ 6 2

/-- C10.  The provider inference slices the state-mapped email with fixed
suffix lengths and no length check: for the stored email "a@b.com" (7
bytes, not ending in the gmail domain) the first slice start is negative,
so the callback panics instead of returning the unsupported-email-domain
error.  Shown on inferProvider itself and on a full HandleCallback call
with a valid stored state mapping to "a@b.com". -/
theorem handleCallback_short_email_panics :
    inferProvider "a@b.com" = .panicked ∧
    handleCallback [("st1", "a@b.com")] [] "code" "st1"
      ⟨fun _ => none, fun _ _ => none⟩ 0 0 =
      ⟨.panicked, [], [], false⟩ := by
  constructor
  · rfl
  · rfl

/-! ## URL query encoding (net/url as used by both auth-URL builders) -/

/-- Upper-case hexadecimal digit of a value below 16. -/
def hexDigit (n : Nat) : Char :=
  if n < 10 then Char.ofNat (48 + n) else Char.ofNat (55 + n)

/-- Go url.QueryEscape on one ASCII character: unreserved characters kept,
space becomes plus, anything else percent-encoded. -/
def queryEscapeChar (c : Char) : List Char :=
  if (65 ≤ c.toNat ∧ c.toNat ≤ 90) ∨ (97 ≤ c.toNat ∧ c.toNat ≤ 122) ∨
      (48 ≤ c.toNat ∧ c.toNat ≤ 57) ∨
      c = '-' ∨ c = '_' ∨ c = '.' ∨ c = '~' then [c]
  else if c = ' ' then ['+']
  else ['%', hexDigit (c.toNat / 16 % 16), hexDigit (c.toNat % 16)]

/-- Go url.QueryEscape on an ASCII string. -/
def queryEscape (s : String) : String :=
  String.mk (s.data.foldr (fun c acc => queryEscapeChar c ++ acc) [])

/-- Byte-lexicographic string order used by sort.Strings (ASCII inputs). -/
def strLeB : List Char → List Char → Bool
  | [], _ => true
  | _ :: _, [] => false
  | c :: a, d :: b =>
    if c.toNat < d.toNat then true
    else if d.toNat < c.toNat then false
    else strLeB a b

/-- Insertion into a key-sorted parameter list. -/
def insertParam (p : String × String) :
    List (String × String) → List (String × String)
  | [] => [p]
  | q :: t => if strLeB p.1.data q.1.data then p :: q :: t else q :: insertParam p t

/-- Key sort performed by url.Values.Encode (all keys here are distinct). -/
def sortParams (l : List (String × String)) : List (String × String) :=
  l.foldr insertParam []

/-- url.Values.Encode: sorted key=value pairs joined with ampersands,
keys and values query-escaped. -/
def encodeQuery (l : List (String × String)) : String :=
  String.intercalate "&"
    ((sortParams l).map (fun p => queryEscape p.1 ++ "=" ++ queryEscape p.2))

/-! ## base64 URL alphabet (encoding/base64 URLEncoding) -/

/-- Character of a six-bit value in the base64 URL alphabet. -/
def b64Chr (n : Nat) : Char :=
  if n < 26 then Char.ofNat (65 + n)
  else if n < 52 then Char.ofNat (97 + (n - 26))
  else if n < 62 then Char.ofNat (48 + (n - 52))
  else if n = 62 then '-' else '_'

/-- Padded base64 encoding of a byte list, three bytes to four characters. -/
def b64EncodeL : List Nat → List Char
  | [] => []
  | [b1] => [b64Chr (b1 / 4), b64Chr (b1 % 4 * 16), '=', '=']
  | [b1, b2] =>
    [b64Chr (b1 / 4), b64Chr (b1 % 4 * 16 + b2 / 16), b64Chr (b2 % 16 * 4), '=']
  | b1 :: b2 :: b3 :: rest =>
    b64Chr (b1 / 4) :: b64Chr (b1 % 4 * 16 + b2 / 16) ::
      b64Chr (b2 % 16 * 4 + b3 / 64) :: b64Chr (b3 % 64) :: b64EncodeL rest

/-- Go base64.URLEncoding.EncodeToString. -/
def base64UrlEncode (bytes : List Nat) : String :=
  String.mk (b64EncodeL bytes)

/-! ## Authorization URLs -/

/-- Google OAuth client settings of the first services/oauth.go variant
(config.OAuth.Google: id, redirect and configured scopes). -/
structure GoogleOAuthConfig where
  clientID : String
  redirectURL : String
  scopes : List String

/-- Query parameters set by getGoogleAuthURL (first variant): client id,
redirect, response type, joined scopes, offline access, forced consent
prompt, and the caller's state. -/
def googleAuthURLParams (cfg : GoogleOAuthConfig) (state : String) :
    List (String × String) :=
  [("client_id", cfg.clientID),
   ("redirect_uri", cfg.redirectURL),
   ("response_type", "code"),
   ("scope", String.intercalate " " cfg.scopes),
   ("access_type", "offline"),
   ("prompt", "consent"),
   ("state", state)]

/-- getGoogleAuthURL (first services/oauth.go variant). -/
def getGoogleAuthURL (cfg : GoogleOAuthConfig) (state : String) : String :=
  "https://accounts.google.com/o/oauth2/v2/auth?" ++
    encodeQuery (googleAuthURLParams cfg state)

/-- Query parameters produced by golang.org/x/oauth2 Config.AuthCodeURL:
response type and client id always, redirect/scope/state when non-empty,
plus whatever options were passed (here at most access_type). -/
def authCodeURLParams (clientID redirectURL : String) (scopes : List String)
    (state : String) (accessType : Option String) : List (String × String) :=
  [("response_type", "code"), ("client_id", clientID)] ++
  (if redirectURL = "" then [] else [("redirect_uri", redirectURL)]) ++
  (if scopes = [] then [] else [("scope", String.intercalate " " scopes)]) ++
  (if state = "" then [] else [("state", state)]) ++
  (match accessType with
   | some v => [("access_type", v)]
   | none => [])

/-- golang.org/x/oauth2 Config.AuthCodeURL for an endpoint URL without a
query part, as both endpoints here are. -/
def authCodeURL (endpointAuthURL clientID redirectURL : String)
    (scopes : List String) (state : String) (accessType : Option String) :
    String :=
  endpointAuthURL ++ "?" ++
    encodeQuery (authCodeURLParams clientID redirectURL scopes state accessType)

/-- Scopes hard-coded for gmail in the second services/oauth.go variant. -/
def gmailScopes : List String :=
  ["https://www.googleapis.com/auth/gmail.readonly",
   "https://www.googleapis.com/auth/userinfo.email"]

/-- Scopes hard-coded for outlook in the second services/oauth.go variant. -/
def outlookScopes : List String :=
  ["https://graph.microsoft.com/Mail.Read",
   "https://graph.microsoft.com/User.Read"]

/-- golang.org/x/oauth2/google Endpoint.AuthURL. -/
def googleEndpointAuthURL : String :=
  "https://accounts.google.com/o/oauth2/auth"

/-- golang.org/x/oauth2/microsoft AzureADEndpoint common AuthURL. -/
def azureCommonAuthURL : String :=
  "https://login.microsoftonline.com/common/oauth2/v2.0/authorize"

/-- One OAuth client id/secret/redirect triple (config.OAuthConfig leg). -/
structure OAuthClientConfig where
  clientID : String
  clientSecret : String
  redirectURL : String

/-- The google and outlook legs of config.OAuthConfig. -/
structure OAuthConfigPair where
  google : OAuthClientConfig
  outlook : OAuthClientConfig

/-- GetAuthURL of the second services/oauth.go variant: rejects unknown
providers, otherwise encodes 32 bytes read from crypto/rand as the state,
records state to email in the in-memory map, and returns AuthCodeURL with
the offline access type and no prompt parameter.  The randomness read is
the `rand` argument. -/
def getAuthURLv2 (cfg : OAuthConfigPair) (states : List (String × String))
    (provider email : String) (rand : List Nat) :
    Option String × List (String × String) :=
  if provider = "gmail" then
    let stateStr := base64UrlEncode rand
    (some (authCodeURL googleEndpointAuthURL cfg.google.clientID
            cfg.google.redirectURL gmailScopes stateStr (some "offline")),
     insertState states stateStr email)
  else if provider = "outlook" then
    let stateStr := base64UrlEncode rand
    (some (authCodeURL azureCommonAuthURL cfg.outlook.clientID
            cfg.outlook.redirectURL outlookScopes stateStr (some "offline")),
     insertState states stateStr email)
  else (none, states)

/-! ## Account-uniqueness invariant (claim C7) -/

/-- No two stored accounts share the provider and email pair. -/
def PairUnique (db : List Account) : Prop :=
  db.Pairwise (fun a b => ¬(a.provider = b.provider ∧ a.email = b.email))

/-- One operation of the OAuth lifecycle: starting a handshake
(GetAuthURL of the second variant) or completing one (HandleCallback). -/
inductive SvcOp where
  | start (provider email : String) (rand : List Nat)
  | callback (code st : String) (o : CallbackOracle) (now : Nat)
      (nextId : ObjectId)

/-- Full state of the OAuth service: its client configuration, the
in-memory handshake-state map, and the accounts collection. -/
structure SvcState where
  cfg : OAuthConfigPair
  states : List (String × String)
  accounts : List Account

/-- Effect of one lifecycle operation on the service state. -/
def applyOp (σ : SvcState) : SvcOp → SvcState
  | .start provider email rand =>
    { σ with states := (getAuthURLv2 σ.cfg σ.states provider email rand).2 }
  | .callback code st o now nid =>
    let r := handleCallback σ.states σ.accounts code st o now nid
    { σ with states := r.states, accounts := r.accounts }

/-- Effect of a sequence of lifecycle operations. -/
def applyOps (σ : SvcState) (ops : List SvcOp) : SvcState :=
  ops.foldl applyOp σ

/-- Updating token fields never touches provider or email, so the pair
uniqueness of the collection survives UpdateAccount. -/
theorem pairUnique_updateAccount (db : List Account) (now : Nat)
    (a : Account) (h : PairUnique db) : PairUnique (updateAccount db now a) := by
  unfold PairUnique updateAccount at *
  refine h.map _ (fun x y hxy => ?_)
  by_cases hx : x.id = a.id <;> by_cases hy : y.id = a.id <;> simp_all

/-- Inserting an account whose email no stored account carries preserves
pair uniqueness. -/
theorem pairUnique_createAccount_fresh (db : List Account) (now : Nat)
    (nid : ObjectId) (a : Account) (h : PairUnique db)
    (hfresh : getAccountByEmail db a.email = none) :
    PairUnique (createAccount db now nid a) := by
  unfold PairUnique createAccount at *
  rw [List.pairwise_append]
  refine ⟨h, List.pairwise_singleton _ _, ?_⟩
  intro x hx y hy
  simp only [List.mem_singleton] at hy
  subst hy
  have hne := List.find?_eq_none.mp hfresh x hx
  simp only [decide_eq_true_eq] at hne
  intro hc
  exact hne (by simpa using hc.2)

/-- A completed callback preserves pair uniqueness: it creates an account
only when GetAccountByEmail found none with that email, and otherwise at
most overwrites tokens. -/
theorem pairUnique_handleCallback (states : List (String × String))
    (accounts : List Account) (code st : String) (o : CallbackOracle)
    (now : Nat) (nid : ObjectId) (h : PairUnique accounts) :
    PairUnique (handleCallback states accounts code st o now nid).accounts := by
  unfold handleCallback
  repeat' split
  all_goals simp only []
  all_goals try exact h
  · apply pairUnique_createAccount_fresh _ _ _ _ h
    assumption
  · exact pairUnique_updateAccount _ _ _ h

/-- C7 counterexample.  The claim admits bare CreateAccount among the
operations, but mongodb.go's CreateAccount is an unconditional insert and
no code path wired to this store installs a unique index, so two direct
CreateAccount calls with the same provider and email yield two such rows. -/
theorem createAccount_duplicate_pair :
    ¬ PairUnique
      (createAccount
        (createAccount [] 5 1
          { id := 0, provider := "gmail", email := "a@gmail.com"
            accessToken := "x", refreshToken := "y", tokenExpiry := 9
            createdAt := 0, updatedAt := 0 })
        6 2
        { id := 0, provider := "gmail", email := "a@gmail.com"
          accessToken := "x2", refreshToken := "y2", tokenExpiry := 9
          createdAt := 0, updatedAt := 0 }) := by
  simp [PairUnique, createAccount]

/-- C7 as amended.  Restricted to the OAuth lifecycle operations proper
(StartHandshake and CompleteHandshake), the invariant holds: a callback
updates the existing account for the state-mapped email or creates one
only when none exists, so no sequence of these operations yields two
accounts sharing the provider and email pair. -/
theorem oauth_ops_preserve_pair_unique (ops : List SvcOp) :
    ∀ σ : SvcState, PairUnique σ.accounts →
      PairUnique (applyOps σ ops).accounts := by
  induction ops with
  | nil => exact fun σ h => h
  | cons op t ih =>
    intro σ h
    apply ih
    cases op with
    | start provider email rand => exact h
    | callback code st o now nid =>
      exact pairUnique_handleCallback σ.states σ.accounts code st o now nid h

/-- Witness for the amended C7: a start followed by a successful callback
on an initially empty service leaves the accounts pair-unique. -/
theorem oauth_ops_preserve_pair_unique_witness :
    PairUnique
      (applyOps
        { cfg := { google := { clientID := "gid", clientSecret := "gs"
                               redirectURL := "http://cb" }
                   outlook := { clientID := "oid", clientSecret := "os"
                                redirectURL := "http://cb" } }
          states := [], accounts := [] }
        [SvcOp.start "gmail" "u@gmail.com" [0, 1, 2],
         SvcOp.callback "c" (base64UrlEncode [0, 1, 2])
           ⟨fun _ => some ⟨"at", "rt", 100⟩, fun _ _ => some "u@gmail.com"⟩
           7 1]).accounts :=
  oauth_ops_preserve_pair_unique
    [SvcOp.start "gmail" "u@gmail.com" [0, 1, 2],
     SvcOp.callback "c" (base64UrlEncode [0, 1, 2])
       ⟨fun _ => some ⟨"at", "rt", 100⟩, fun _ _ => some "u@gmail.com"⟩
       7 1]
    { cfg := { google := { clientID := "gid", clientSecret := "gs"
                           redirectURL := "http://cb" }
               outlook := { clientID := "oid", clientSecret := "os"
                            redirectURL := "http://cb" } }
      states := [], accounts := [] }
    (List.Pairwise.nil)

/-! ## Token refresh (RefreshToken of the second services/oauth.go variant) -/

/-- RefreshToken: rejects unknown providers, asks the provider token
source for fresh tokens (`refreshResult`, `none` meaning the refresh call
failed), and only on success copies the new tokens onto the account and
persists them with UpdateAccount.  Returns the error if any, the accounts
collection afterwards, and the in-memory account afterwards. -/
def refreshToken (accounts : List Account) (acct : Account)
    (refreshResult : Option OToken) (now : Nat) :
    Option String × List Account × Account :=
  if acct.provider = "gmail" ∨ acct.provider = "outlook" then
    match refreshResult with
    | none => (some "failed to refresh token", accounts, acct)
    | some nt =>
      let acct' : Account :=
        { acct with accessToken := nt.accessToken
                    refreshToken := nt.refreshToken
                    tokenExpiry := nt.expiry }
      (none, updateAccount accounts now acct', acct')
  else (some "unsupported provider", accounts, acct)

/-- C6.  Token refresh is atomic with respect to stored credentials: when
the provider's refresh call fails, RefreshToken returns an error and both
the stored collection and the in-memory account keep their old access
token, refresh token and expiry; and the stored collection changes at all
only when the refresh call returned new tokens. -/
theorem refreshToken_failure_leaves_tokens (accounts : List Account)
    (acct : Account) (now : Nat)
    (hp : acct.provider = "gmail" ∨ acct.provider = "outlook") :
    refreshToken accounts acct none now =
      (some "failed to refresh token", accounts, acct) ∧
    ∀ r : Option OToken,
      (refreshToken accounts acct r now).2.1 ≠ accounts → r.isSome := by
  constructor
  · unfold refreshToken
    rw [if_pos hp]
  · intro r hne
    cases r with
    | none =>
      exfalso
      apply hne
      unfold refreshToken
      rw [if_pos hp]
    | some nt => rfl

/-- Witness for C6: a gmail account whose refresh call fails is returned
with untouched tokens and an error. -/
theorem refreshToken_failure_leaves_tokens_witness :
    (refreshToken
        [{ id := 3, provider := "gmail", email := "u@gmail.com"
           accessToken := "a0", refreshToken := "r0", tokenExpiry := 10
           createdAt := 1, updatedAt := 1 }]
        { id := 3, provider := "gmail", email := "u@gmail.com"
          accessToken := "a0", refreshToken := "r0", tokenExpiry := 10
          createdAt := 1, updatedAt := 1 }
        none 20 =
      (some "failed to refresh token",
       [{ id := 3, provider := "gmail", email := "u@gmail.com"
          accessToken := "a0", refreshToken := "r0", tokenExpiry := 10
          createdAt := 1, updatedAt := 1 }],
       { id := 3, provider := "gmail", email := "u@gmail.com"
         accessToken := "a0", refreshToken := "r0", tokenExpiry := 10
         createdAt := 1, updatedAt := 1 })) ∧
    ∀ r : Option OToken,
      (refreshToken
          [{ id := 3, provider := "gmail", email := "u@gmail.com"
             accessToken := "a0", refreshToken := "r0", tokenExpiry := 10
             createdAt := 1, updatedAt := 1 }]
          { id := 3, provider := "gmail", email := "u@gmail.com"
            accessToken := "a0", refreshToken := "r0", tokenExpiry := 10
            createdAt := 1, updatedAt := 1 }
          r 20).2.1 ≠
        [{ id := 3, provider := "gmail", email := "u@gmail.com"
           accessToken := "a0", refreshToken := "r0", tokenExpiry := 10
           createdAt := 1, updatedAt := 1 }] → r.isSome :=
  refreshToken_failure_leaves_tokens
    [{ id := 3, provider := "gmail", email := "u@gmail.com"
       accessToken := "a0", refreshToken := "r0", tokenExpiry := 10
       createdAt := 1, updatedAt := 1 }]
    { id := 3, provider := "gmail", email := "u@gmail.com"
      accessToken := "a0", refreshToken := "r0", tokenExpiry := 10
      createdAt := 1, updatedAt := 1 }
    20 (Or.inl rfl)

/-! ## Claim C8: the Google authorization URL -/

/-- Parameter list of the gmail authorization URL built by the second
variant's GetAuthURL for randomness `rand` (AuthCodeURL applied exactly as
that code applies it). -/
def gmailAuthParamsV2 (cfg : OAuthConfigPair) (rand : List Nat) :
    List (String × String) :=
  authCodeURLParams cfg.google.clientID cfg.google.redirectURL gmailScopes
    (base64UrlEncode rand) (some "offline")

/-- A concrete OAuth client configuration used by concrete instances. -/
def exCfg : OAuthConfigPair :=
  { google := { clientID := "gid", clientSecret := "gs"
                redirectURL := "http://localhost/cb" }
    outlook := { clientID := "oid", clientSecret := "os"
                 redirectURL := "http://localhost/cb" } }

/-- Thirty-two concrete bytes standing for one crypto/rand read. -/
def exRand : List Nat :=
  [0, 1, 2, 3, 4, 5, 6, 7, 8, 9, 10, 11, 12, 13, 14, 15, 16, 17, 18,
   19, 20, 21, 22, 23, 24, 25, 26, 27, 28, 29, 30, 31]

/-- The gmail authorization URL the second variant builds at `exCfg` and
`exRand`. -/
def exGmailURL : String :=
  "https://accounts.google.com/o/oauth2/auth?access_type=offline&client_id=gid&redirect_uri=http%3A%2F%2Flocalhost%2Fcb&response_type=code&scope=https%3A%2F%2Fwww.googleapis.com%2Fauth%2Fgmail.readonly+https%3A%2F%2Fwww.googleapis.com%2Fauth%2Fuserinfo.email&state=AAECAwQFBgcICQoLDA0ODxAREhMUFRYXGBkaGxwdHh8%3D"

/-- Encoding at least one byte yields at least one character. -/
theorem base64UrlEncode_ne_empty (rand : List Nat) (h : rand ≠ []) :
    base64UrlEncode rand ≠ "" := by
  match rand, h with
  | [b1], _ => simp [base64UrlEncode, b64EncodeL, String.ext_iff]
  | [b1, b2], _ => simp [base64UrlEncode, b64EncodeL, String.ext_iff]
  | b1 :: b2 :: b3 :: rest, _ =>
    simp [base64UrlEncode, b64EncodeL, String.ext_iff]

set_option maxRecDepth 100000 in
/-- C8 counterexample.  The OAuth service's GetAuthURL (second variant,
cited lines 399-441) builds, at a concrete configuration and randomness,
a Google authorization URL that contains no prompt parameter, hence not
prompt=consent. -/
theorem gmailAuthURLv2_lacks_prompt :
    (getAuthURLv2 exCfg [] "gmail" "u@gmail.com" exRand).1 = some exGmailURL ∧
    containsStr exGmailURL "prompt" = false := by
  constructor
  · decide
  · decide

/-- C8 as amended.  getGoogleAuthURL of the first variant does set the
caller's state together with access_type=offline and prompt=consent; the
second variant's gmail GetAuthURL sets its generated state and
access_type=offline but never a prompt parameter. -/
theorem googleAuthURL_prompt_divergence :
    (∀ (cfg : GoogleOAuthConfig) (state : String),
      ("state", state) ∈ googleAuthURLParams cfg state ∧
      ("access_type", "offline") ∈ googleAuthURLParams cfg state ∧
      ("prompt", "consent") ∈ googleAuthURLParams cfg state) ∧
    (∀ (cfg : OAuthConfigPair) (states : List (String × String))
        (email : String) (rand : List Nat), rand ≠ [] →
      (getAuthURLv2 cfg states "gmail" email rand).1 =
        some (googleEndpointAuthURL ++ "?" ++
          encodeQuery (gmailAuthParamsV2 cfg rand)) ∧
      ("state", base64UrlEncode rand) ∈ gmailAuthParamsV2 cfg rand ∧
      ("access_type", "offline") ∈ gmailAuthParamsV2 cfg rand ∧
      ∀ v : String, ("prompt", v) ∉ gmailAuthParamsV2 cfg rand) := by
  constructor
  · intro cfg state
    refine ⟨?_, ?_, ?_⟩ <;> simp [googleAuthURLParams]
  · intro cfg states email rand hrand
    have hne := base64UrlEncode_ne_empty rand hrand
    refine ⟨rfl, ?_, ?_, ?_⟩
    · simp [gmailAuthParamsV2, authCodeURLParams, hne, gmailScopes]
    · simp [gmailAuthParamsV2, authCodeURLParams, gmailScopes]
    · intro v hv
      simp [gmailAuthParamsV2, authCodeURLParams, gmailScopes, hne] at hv

/-- Witness for the amended C8, at a concrete configuration, state and
randomness. -/
theorem googleAuthURL_prompt_divergence_witness :
    (("state", "st") ∈
        googleAuthURLParams ⟨"cid", "http://cb", ["s1"]⟩ "st" ∧
      ("access_type", "offline") ∈
        googleAuthURLParams ⟨"cid", "http://cb", ["s1"]⟩ "st" ∧
      ("prompt", "consent") ∈
        googleAuthURLParams ⟨"cid", "http://cb", ["s1"]⟩ "st") ∧
    ((getAuthURLv2 exCfg [] "gmail" "u@gmail.com" exRand).1 =
        some (googleEndpointAuthURL ++ "?" ++
          encodeQuery (gmailAuthParamsV2 exCfg exRand)) ∧
      ("state", base64UrlEncode exRand) ∈ gmailAuthParamsV2 exCfg exRand ∧
      ("access_type", "offline") ∈ gmailAuthParamsV2 exCfg exRand ∧
      ∀ v : String, ("prompt", v) ∉ gmailAuthParamsV2 exCfg exRand) :=
  ⟨googleAuthURL_prompt_divergence.1 ⟨"cid", "http://cb", ["s1"]⟩ "st",
   googleAuthURL_prompt_divergence.2 exCfg [] "u@gmail.com" exRand
     (by decide)⟩

/-! ## Claim C9: handshake state generation -/

/-- Base64 URL alphabet read back to a six-bit value (a left inverse of
b64Chr, used as a specification tool for injectivity). -/
def b64Dec (c : Char) : Nat :=
  if 65 ≤ c.toNat ∧ c.toNat ≤ 90 then c.toNat - 65
  else if 97 ≤ c.toNat ∧ c.toNat ≤ 122 then c.toNat - 71
  else if 48 ≤ c.toNat ∧ c.toNat ≤ 57 then c.toNat + 4
  else if c = '-' then 62 else 63

/-- Specification-side base64 decoding, inverse of b64EncodeL on encoded
output. -/
def b64DecodeSpec : List Char → List Nat
  | c1 :: c2 :: c3 :: c4 :: rest =>
    if c3 = '=' then [b64Dec c1 * 4 + b64Dec c2 / 16]
    else if c4 = '=' then
      [b64Dec c1 * 4 + b64Dec c2 / 16, b64Dec c2 % 16 * 16 + b64Dec c3 / 4]
    else
      (b64Dec c1 * 4 + b64Dec c2 / 16) ::
        (b64Dec c2 % 16 * 16 + b64Dec c3 / 4) ::
        (b64Dec c3 % 4 * 64 + b64Dec c4) :: b64DecodeSpec rest
  | _ => []

/-- Reading back an encoded six-bit value recovers it. -/
theorem b64Dec_b64Chr : ∀ n, n < 64 → b64Dec (b64Chr n) = n := by
  decide

/-- No six-bit value encodes to the padding character. -/
theorem b64Chr_ne_pad : ∀ n, n < 64 → b64Chr n ≠ '=' := by
  decide

/-- Decoding inverts encoding on byte lists. -/
theorem b64DecodeSpec_b64EncodeL :
    ∀ l : List Nat, (∀ b ∈ l, b < 256) → b64DecodeSpec (b64EncodeL l) = l := by
  intro l
  induction l using b64EncodeL.induct with
  | case1 => intro _; rfl
  | case2 b1 =>
    intro hb
    have h1 : b1 < 256 := hb b1 (by simp)
    simp only [b64EncodeL, b64DecodeSpec, if_true]
    rw [b64Dec_b64Chr _ (by omega), b64Dec_b64Chr _ (by omega)]
    simp only [List.cons.injEq, and_true]
    omega
  | case3 b1 b2 =>
    intro hb
    have h1 : b1 < 256 := hb b1 (by simp)
    have h2 : b2 < 256 := hb b2 (by simp)
    simp only [b64EncodeL, b64DecodeSpec]
    rw [if_neg (b64Chr_ne_pad _ (by omega))]
    simp only [if_true]
    rw [b64Dec_b64Chr _ (by omega), b64Dec_b64Chr _ (by omega),
      b64Dec_b64Chr _ (by omega)]
    simp only [List.cons.injEq, and_true]
    omega
  | case4 b1 b2 b3 rest ih =>
    intro hb
    have h1 : b1 < 256 := hb b1 (by simp)
    have h2 : b2 < 256 := hb b2 (by simp)
    have h3 : b3 < 256 := hb b3 (by simp)
    simp only [b64EncodeL, b64DecodeSpec]
    rw [if_neg (b64Chr_ne_pad _ (by omega)),
      if_neg (b64Chr_ne_pad _ (by omega))]
    rw [b64Dec_b64Chr _ (by omega), b64Dec_b64Chr _ (by omega),
      b64Dec_b64Chr _ (by omega), b64Dec_b64Chr _ (by omega)]
    rw [ih (fun b hbm => hb b (by simp [hbm]))]
    simp only [List.cons.injEq, and_true]
    omega

/-- Broken-down Go time value (the fields Format reads). The zone offset
is in minutes east of UTC. -/
structure GoTime where
  year : Nat
  month : Nat
  day : Nat
  hour : Nat
  minute : Nat
  second : Nat
  nanos : Nat
  offsetMinutes : Int
  deriving Repr, DecidableEq

/-- Two-digit zero-padded decimal. -/
def pad2 (n : Nat) : String :=
  if n < 10 then "0" ++ Nat.repr n else Nat.repr n

/-- Four-digit zero-padded decimal (years in the supported range). -/
def pad4 (n : Nat) : String :=
  if n < 10 then "000" ++ Nat.repr n
  else if n < 100 then "00" ++ Nat.repr n
  else if n < 1000 then "0" ++ Nat.repr n
  else Nat.repr n

/-- Nine-digit zero-padded decimal as characters. -/
def pad9Chars (n : Nat) : List Char :=
  List.replicate (9 - (Nat.repr n).length) '0' ++ (Nat.repr n).data

/-- Drops trailing zero characters. -/
def trimTrailingZeros (l : List Char) : List Char :=
  (l.reverse.dropWhile (fun c => c = '0')).reverse

/-- Fractional-second part of the RFC3339Nano layout: trailing zeros
trimmed, omitted entirely at zero nanoseconds. -/
def nanoFrac (nanos : Nat) : String :=
  if nanos = 0 then ""
  else "." ++ String.mk (trimTrailingZeros (pad9Chars nanos))

/-- Zone suffix of the Z07:00 layout element: Z at zero offset. -/
def zoneSuffix (offsetMinutes : Int) : String :=
  if offsetMinutes = 0 then "Z"
  else
    (if offsetMinutes < 0 then "-" else "+") ++
      pad2 (offsetMinutes.natAbs / 60) ++ ":" ++ pad2 (offsetMinutes.natAbs % 60)

/-- Go time.Format with the RFC3339Nano layout. -/
def formatRFC3339Nano (t : GoTime) : String :=
  pad4 t.year ++ "-" ++ pad2 t.month ++ "-" ++ pad2 t.day ++ "T" ++
    pad2 t.hour ++ ":" ++ pad2 t.minute ++ ":" ++ pad2 t.second ++
    nanoFrac t.nanos ++ zoneSuffix t.offsetMinutes

/-- generateRandomState of backend/internal/handlers/oauth.go: despite its
name it returns the current wall-clock time rendered in the RFC3339Nano
layout, and a nil error; it consumes no randomness at all. -/
def generateRandomState (now : GoTime) : String × Option String :=
  (formatRFC3339Nano now, none)

/-- C9 counterexample.  The handler-level state generator returns exactly
the RFC3339Nano rendering of the clock: at the concrete instant
2025-06-16 10:30:00.123456789 +05:30 the generated state is that
timestamp string.  The state is thus derived deterministically from the
current time (two invocations at one clock reading coincide), refuting
the claimed 128 bits of entropy and never-time-derived property. -/
theorem generateRandomState_is_timestamp :
    generateRandomState
        { year := 2025, month := 6, day := 16, hour := 10, minute := 30
          second := 0, nanos := 123456789, offsetMinutes := 330 } =
      ("2025-06-16T10:30:00.123456789+05:30", none) := by
  decide

/-- C9 as amended.  The services-layer GetAuthURL does generate the state
as the base64 encoding of 32 bytes read from crypto/rand, and distinct
byte reads give distinct states (the encoding is injective on byte
lists); but the handler-layer generateRandomState derives the state
deterministically from the current time with no randomness. -/
theorem handshake_state_generation :
    (∀ r1 r2 : List Nat, (∀ b ∈ r1, b < 256) → (∀ b ∈ r2, b < 256) →
      base64UrlEncode r1 = base64UrlEncode r2 → r1 = r2) ∧
    (∀ (cfg : OAuthConfigPair) (states : List (String × String))
        (email : String) (rand : List Nat),
      (getAuthURLv2 cfg states "gmail" email rand).2 =
        insertState states (base64UrlEncode rand) email) ∧
    (∀ now : GoTime, generateRandomState now = (formatRFC3339Nano now, none)) := by
  refine ⟨?_, fun cfg states email rand => rfl, fun now => rfl⟩
  intro r1 r2 h1 h2 heq
  have heq2 : b64EncodeL r1 = b64EncodeL r2 := by
    simpa [base64UrlEncode, String.ext_iff] using heq
  calc r1 = b64DecodeSpec (b64EncodeL r1) := (b64DecodeSpec_b64EncodeL r1 h1).symm
    _ = b64DecodeSpec (b64EncodeL r2) := by rw [heq2]
    _ = r2 := b64DecodeSpec_b64EncodeL r2 h2

/-- Witness for the amended C9 at concrete byte lists, configuration and
clock reading. -/
theorem handshake_state_generation_witness :
    ([3, 7] = [3, 7] ∧
      (getAuthURLv2 exCfg [] "gmail" "u@gmail.com" [3, 7]).2 =
        insertState [] (base64UrlEncode [3, 7]) "u@gmail.com" ∧
      generateRandomState
          { year := 2024, month := 1, day := 2, hour := 3, minute := 4
            second := 5, nanos := 0, offsetMinutes := 0 } =
        (formatRFC3339Nano
          { year := 2024, month := 1, day := 2, hour := 3, minute := 4
            second := 5, nanos := 0, offsetMinutes := 0 }, none)) :=
  ⟨handshake_state_generation.1 [3, 7] [3, 7] (by decide) (by decide) rfl,
   handshake_state_generation.2.1 exCfg [] "u@gmail.com" [3, 7],
   handshake_state_generation.2.2
     { year := 2024, month := 1, day := 2, hour := 3, minute := 4
       second := 5, nanos := 0, offsetMinutes := 0 }⟩

/-! ## Claim C3: list-filter semantics of the two stores -/

/-- Row-matching semantics of the filter document built by
MongoStore.ListEmails: equality on account id, case-insensitive regex
(taken at literal patterns, i.e. substring) on from and subject, the same
regex on the to array field which matches when any element matches,
equality-on-array containment for labels, boolean equality for read and
starred, and an inclusive received-at range. -/
def mongoEmailMatches (f : EmailFilter) (e : Email) : Bool :=
  (match f.accountID with | none => true | some a => e.accountID = a) &&
  (match f.fromAddr with | none => true | some p => containsCI e.fromAddr p) &&
  (match f.toRecip with
   | none => true
   | some p => e.toRecips.any (fun t => containsCI t p)) &&
  (match f.subject with | none => true | some p => containsCI e.subject p) &&
  (match f.label with | none => true | some l => e.labels.contains l) &&
  (match f.read with | none => true | some b => e.read = b) &&
  (match f.starred with | none => true | some b => e.starred = b) &&
  (match f.startDate with | none => true | some d => d ≤ e.receivedAt) &&
  (match f.endDate with | none => true | some d => e.receivedAt ≤ d)

/-- Row-matching semantics of the WHERE clause built by
CosmosStore.ListEmails.  That variant reads value-typed filter fields, so
a zero value (empty string, zero id) means the clause is omitted; the
sender clause is exact case-sensitive equality; the recipient clause
compares the stored to array against a string, which is never true; the
subject clause is case-sensitive CONTAINS; the date clauses reference
c.date, a field the stored documents do not carry (they serialize
received_at), and a comparison against a missing field keeps no document;
label, read and starred have no clauses at all. -/
def cosmosEmailMatches (f : EmailFilter) (e : Email) : Bool :=
  (if f.accountID.getD 0 = 0 then true
   else e.accountID = f.accountID.getD 0) &&
  (if f.fromAddr.getD "" = "" then true
   else e.fromAddr = f.fromAddr.getD "") &&
  (if f.toRecip.getD "" = "" then true else false) &&
  (if f.subject.getD "" = "" then true
   else containsStr e.subject (f.subject.getD "")) &&
  (match f.startDate with | none => true | some _ => false) &&
  (match f.endDate with | none => true | some _ => false)

/-- A list is an initial segment of itself. -/
theorem startsWithL_refl (l : List Char) : startsWithL l l = true := by
  induction l with
  | nil => rfl
  | cons a t ih => simp [startsWithL, ih]

/-- A list occurs inside itself. -/
theorem containsL_self (l : List Char) : containsL l l = true := by
  cases l with
  | nil => rfl
  | cons a t => simp [containsL, startsWithL_refl]

/-- The empty pattern occurs in every list. -/
theorem containsL_nil (s : List Char) : containsL s [] = true := by
  cases s <;> simp [containsL, startsWithL]

/-- Mapping a function over both lists preserves the initial-segment test. -/
theorem startsWithL_map (f : Char → Char) :
    ∀ p s, startsWithL p s = true → startsWithL (p.map f) (s.map f) = true := by
  intro p
  induction p with
  | nil => intro s _; rfl
  | cons a p' ih =>
    intro s h
    cases s with
    | nil => exact absurd h (by simp [startsWithL])
    | cons b s' =>
      simp only [startsWithL, Bool.and_eq_true, decide_eq_true_eq] at h
      simp only [List.map, startsWithL, Bool.and_eq_true, decide_eq_true_eq]
      exact ⟨by rw [h.1], ih s' h.2⟩

/-- Mapping a function over both lists preserves the substring test. -/
theorem containsL_map (f : Char → Char) :
    ∀ s p, containsL s p = true → containsL (s.map f) (p.map f) = true := by
  intro s
  induction s with
  | nil =>
    intro p h
    cases p with
    | nil => rfl
    | cons a t => exact absurd h (by simp [containsL, startsWithL])
  | cons b s' ih =>
    intro p h
    simp only [containsL, Bool.or_eq_true] at h ⊢
    rcases h with h | h
    · exact Or.inl (startsWithL_map f p (b :: s') h)
    · exact Or.inr (ih p h)

/-- Case-sensitive substring occurrence implies the case-insensitive one. -/
theorem containsStr_imp_containsCI (s p : String)
    (h : containsStr s p = true) : containsCI s p = true := by
  unfold containsStr at h
  unfold containsCI lowerStr
  exact containsL_map lowerChar s.data p.data h

/-- C3 counterexample.  A filter asking for sender alice matches a stored
email from Alice at example.com under MongoDB's case-insensitive
substring semantics but not under Cosmos DB's exact-equality semantics,
so the two backends return different result sets for the same filter and
data. -/
theorem listEmails_filter_divergence :
    mongoEmailMatches
        { EmailFilter.empty with fromAddr := some "alice" }
        { Email.zero with fromAddr := "Alice@example.com" } = true ∧
    cosmosEmailMatches
        { EmailFilter.empty with fromAddr := some "alice" }
        { Email.zero with fromAddr := "Alice@example.com" } = false := by
  constructor
  · decide
  · decide

/-- C3 as amended.  The backends disagree: MongoDB matches sender,
recipient and subject case-insensitively as substrings and honors label,
read, starred and the date range, while Cosmos DB matches sender by exact
case-sensitive equality, subject by case-sensitive CONTAINS, never
matches a nonempty recipient filter, keeps nothing once a date bound is
set, and ignores label, read and starred.  One inclusion does hold: for a
filter that sets no label, read or starred field and carries no
zero-valued account or empty recipient pattern, every email Cosmos DB
returns also matches MongoDB's filter; the converse fails. -/
theorem cosmos_match_implies_mongo_match (f : EmailFilter) (e : Email)
    (hl : f.label = none) (hr : f.read = none) (hst : f.starred = none)
    (ha : f.accountID ≠ some 0) (ht : f.toRecip ≠ some "")
    (hc : cosmosEmailMatches f e = true) : mongoEmailMatches f e = true := by
  unfold cosmosEmailMatches at hc
  unfold mongoEmailMatches
  simp only [Bool.and_eq_true] at hc ⊢
  obtain ⟨⟨⟨⟨⟨hacc, hfrom⟩, hto⟩, hsub⟩, hsd⟩, hed⟩ := hc
  refine ⟨⟨⟨⟨⟨⟨⟨⟨?_, ?_⟩, ?_⟩, ?_⟩, ?_⟩, ?_⟩, ?_⟩, ?_⟩, ?_⟩
  · match hfa : f.accountID with
    | none => rfl
    | some a =>
      have hane : a ≠ 0 := by
        intro h0
        exact ha (by rw [hfa, h0])
      rw [hfa] at hacc
      simp only [Option.getD_some, if_neg hane] at hacc
      simpa using hacc
  · match hff : f.fromAddr with
    | none => rfl
    | some p =>
      rw [hff] at hfrom
      simp only [Option.getD_some] at hfrom
      by_cases hp : p = ""
      · subst hp
        simpa [containsCI, lowerStr] using containsL_nil (lowerStr e.fromAddr).data
      · rw [if_neg hp] at hfrom
        simp only [decide_eq_true_eq] at hfrom
        rw [← hfrom]
        simpa [containsCI, lowerStr] using containsL_self (e.fromAddr.data.map lowerChar)
  · match hft : f.toRecip with
    | none => rfl
    | some p =>
      have hpne : p ≠ "" := by
        intro h0
        exact ht (by rw [hft, h0])
      rw [hft] at hto
      simp only [Option.getD_some, if_neg hpne] at hto
      exact absurd hto (by simp)
  · match hfs : f.subject with
    | none => rfl
    | some p =>
      rw [hfs] at hsub
      simp only [Option.getD_some] at hsub
      by_cases hp : p = ""
      · subst hp
        simpa [containsCI, lowerStr] using containsL_nil (lowerStr e.subject).data
      · rw [if_neg hp] at hsub
        exact containsStr_imp_containsCI e.subject p hsub
  · rw [hl]
  · rw [hr]
  · rw [hst]
  · match hfd : f.startDate with
    | none => rfl
    | some d =>
      rw [hfd] at hsd
      exact absurd hsd (by simp)
  · match hfd : f.endDate with
    | none => rfl
    | some d =>
      rw [hfd] at hed
      exact absurd hed (by simp)

/-- Witness for the amended C3: a concrete filter by subject and a
concrete stored email that Cosmos DB returns, matched by MongoDB too. -/
theorem cosmos_match_implies_mongo_match_witness :
    mongoEmailMatches
        { EmailFilter.empty with subject := some "Hello" }
        { Email.zero with subject := "Hello world" } = true :=
  cosmos_match_implies_mongo_match
    { EmailFilter.empty with subject := some "Hello" }
    { Email.zero with subject := "Hello world" }
    rfl rfl rfl (by decide) (by decide) (by decide)

/-! ## Claim C4: Gmail MIME body walk -/

/-- Go base64.URLEncoding alphabet value of a character, none outside the
alphabet (padding handled by the block decoder). -/
def b64ValGo (c : Char) : Option Nat :=
  if 65 ≤ c.toNat ∧ c.toNat ≤ 90 then some (c.toNat - 65)
  else if 97 ≤ c.toNat ∧ c.toNat ≤ 122 then some (c.toNat - 71)
  else if 48 ≤ c.toNat ∧ c.toNat ≤ 57 then some (c.toNat + 4)
  else if c = '-' then some 62
  else if c = '_' then some 63
  else none

/-- Go base64.URLEncoding.DecodeString on characters: four-character
blocks, padding of one or two equals signs allowed only in the final
block, error on a foreign character or a length that is not a multiple of
four.  (Go's default decoder does not reject nonzero trailing bits.) -/
def base64UrlDecodeL : List Char → Option (List Nat)
  | [] => some []
  | [c1, c2, '=', '='] =>
    match b64ValGo c1, b64ValGo c2 with
    | some v1, some v2 => some [v1 * 4 + v2 / 16]
    | _, _ => none
  | [c1, c2, c3, '='] =>
    match b64ValGo c1, b64ValGo c2, b64ValGo c3 with
    | some v1, some v2, some v3 =>
      some [v1 * 4 + v2 / 16, v2 % 16 * 16 + v3 / 4]
    | _, _, _ => none
  | c1 :: c2 :: c3 :: c4 :: rest =>
    match b64ValGo c1, b64ValGo c2, b64ValGo c3, b64ValGo c4,
        base64UrlDecodeL rest with
    | some v1, some v2, some v3, some v4, some bytes =>
      some ((v1 * 4 + v2 / 16) :: (v2 % 16 * 16 + v3 / 4) ::
        (v3 % 4 * 64 + v4) :: bytes)
    | _, _, _, _, _ => none
  | _ => none

/-- Go base64.URLEncoding.DecodeString. -/
def base64UrlDecode (s : String) : Option (List Nat) :=
  base64UrlDecodeL s.data

/-- Go string(bytes) for the ASCII bodies under study. -/
def bytesToStr (l : List Nat) : String :=
  String.mk (l.map Char.ofNat)

/-- gmail.MessagePart: its MIME type, base64 body data, headers and
nested parts. -/
inductive MessagePart where
  | mk (mimeType : String) (bodyData : String)
      (headers : List (String × String)) (parts : List MessagePart)

/-- MIME type of a part. -/
def MessagePart.mimeType : MessagePart → String
  | .mk m _ _ _ => m

/-- Base64 body data of a part. -/
def MessagePart.bodyData : MessagePart → String
  | .mk _ d _ _ => d

/-- Headers of a part. -/
def MessagePart.headers : MessagePart → List (String × String)
  | .mk _ _ h _ => h

/-- Nested parts of a part. -/
def MessagePart.subParts : MessagePart → List MessagePart
  | .mk _ _ _ ps => ps

mutual

/-- parseGmailBody: decodes a text/plain part into the body field and a
text/html part into the htmlBody field (each assignment overwriting the
field), then recurses into the nested parts; a decode failure aborts. -/
def parseGmailBody (p : MessagePart) (email : Email) : Except String Email :=
  match p with
  | .mk mime dat _ parts =>
    match
      (if mime = "text/plain" then
        match base64UrlDecode dat with
        | none => Except.error "illegal base64 data"
        | some bytes => Except.ok { email with body := bytesToStr bytes }
      else if mime = "text/html" then
        match base64UrlDecode dat with
        | none => Except.error "illegal base64 data"
        | some bytes => Except.ok { email with htmlBody := bytesToStr bytes }
      else Except.ok email) with
    | .error msg => .error msg
    | .ok email1 => parseGmailParts parts email1

/-- The for-loop of parseGmailBody over nested parts. -/
def parseGmailParts (ps : List MessagePart) (email : Email) :
    Except String Email :=
  match ps with
  | [] => .ok email
  | p :: rest =>
    match parseGmailBody p email with
    | .error msg => .error msg
    | .ok email1 => parseGmailParts rest email1

end

mutual

/-- Body-data strings of the text/plain parts of a tree, in walk order. -/
def plainDatas : MessagePart → List String
  | .mk mime dat _ parts =>
    (if mime = "text/plain" then [dat] else []) ++ plainDatasL parts

/-- Body-data strings of the text/plain parts of a list of trees. -/
def plainDatasL : List MessagePart → List String
  | [] => []
  | p :: rest => plainDatas p ++ plainDatasL rest

end

mutual

/-- Body-data strings of the text/html parts of a tree, in walk order. -/
def htmlDatas : MessagePart → List String
  | .mk mime dat _ parts =>
    (if mime = "text/html" then [dat] else []) ++ htmlDatasL parts

/-- Body-data strings of the text/html parts of a list of trees. -/
def htmlDatasL : List MessagePart → List String
  | [] => []
  | p :: rest => htmlDatas p ++ htmlDatasL rest

end

/-- Decoded content of the last data string of a walk-order list. -/
def lastDecoded (l : List String) : Option String :=
  l.getLast?.bind (fun d => (base64UrlDecode d).map bytesToStr)

/-- C4 counterexample.  A multipart tree with two text/plain parts, the
first decoding to A and the second to B: the walk stores B, the second
part's content, because each later part of a MIME type overwrites the
stored body — the claim's first-found part does not win. -/
theorem parseGmailBody_second_plain_wins :
    parseGmailBody
        (.mk "multipart/alternative" "" []
          [.mk "text/plain" "QQ==" [] [], .mk "text/plain" "Qg==" [] []])
        Email.zero =
      Except.ok { Email.zero with body := "B" } := by
  rfl

/-- Walk order is compositional: the decoded last item of a concatenation
is the decoded last item of the second list when that list is nonempty
and its items decode, else of the first. -/
theorem lastDecoded_append (l1 l2 : List String) (x : String)
    (h2 : ∀ d ∈ l2, (base64UrlDecode d).isSome) :
    (lastDecoded (l1 ++ l2)).getD x =
      (lastDecoded l2).getD ((lastDecoded l1).getD x) := by
  cases l2 with
  | nil => simp [lastDecoded]
  | cons a t =>
    unfold lastDecoded
    rw [List.getLast?_append_cons]
    have hne : (a :: t) ≠ ([] : List String) := by simp
    rw [List.getLast?_eq_getLast_of_ne_nil hne]
    have hdec := h2 _ (List.getLast_mem hne)
    obtain ⟨bytes, hbytes⟩ := Option.isSome_iff_exists.mp hdec
    simp [hbytes]

/-- Every successful walk stores the decoding of the LAST text/plain part
and the LAST text/html part (in walk order), keeping the prior field
value only when no part of that type exists; shown simultaneously for
trees and part lists by strong induction on size. -/
theorem parseGmail_last_aux : ∀ n : Nat,
    (∀ p : MessagePart, sizeOf p ≤ n → ∀ e e' : Email,
      parseGmailBody p e = .ok e' →
      (∀ d ∈ plainDatas p, (base64UrlDecode d).isSome) ∧
      (∀ d ∈ htmlDatas p, (base64UrlDecode d).isSome) ∧
      e'.body = (lastDecoded (plainDatas p)).getD e.body ∧
      e'.htmlBody = (lastDecoded (htmlDatas p)).getD e.htmlBody) ∧
    (∀ ps : List MessagePart, sizeOf ps ≤ n → ∀ e e' : Email,
      parseGmailParts ps e = .ok e' →
      (∀ d ∈ plainDatasL ps, (base64UrlDecode d).isSome) ∧
      (∀ d ∈ htmlDatasL ps, (base64UrlDecode d).isSome) ∧
      e'.body = (lastDecoded (plainDatasL ps)).getD e.body ∧
      e'.htmlBody = (lastDecoded (htmlDatasL ps)).getD e.htmlBody) := by
  intro n
  induction n with
  | zero =>
    constructor
    · intro p hp
      exfalso
      cases p with
      | mk mime dat hs parts => simp at hp
    · intro ps hps
      exfalso
      cases ps with
      | nil => simp at hps
      | cons p rest => simp at hps
  | succ n ih =>
    constructor
    · intro p hp e e' hparse
      match p with
      | .mk mime dat hs parts =>
        have hsz : sizeOf parts ≤ n := by
          simp at hp
          omega
        unfold parseGmailBody at hparse
        by_cases hmime : mime = "text/plain"
        · subst hmime
          simp only [if_true] at hparse
          cases hdec : base64UrlDecode dat with
          | none => rw [hdec] at hparse; exact absurd hparse (by simp)
          | some bytes =>
            rw [hdec] at hparse
            simp only [] at hparse
            obtain ⟨hP, hH, hb, hh⟩ := ih.2 parts hsz _ _ hparse
            have hplain : plainDatas (.mk "text/plain" dat hs parts) =
                [dat] ++ plainDatasL parts := by simp [plainDatas]
            have hhtml : htmlDatas (.mk "text/plain" dat hs parts) =
                htmlDatasL parts := by simp [htmlDatas]
            refine ⟨?_, ?_, ?_, ?_⟩
            · rw [hplain]
              intro d hd
              rcases List.mem_append.mp hd with hd | hd
              · simp only [List.mem_singleton] at hd
                rw [hd, hdec]
                rfl
              · exact hP d hd
            · rw [hhtml]; exact hH
            · rw [hplain, lastDecoded_append [dat] _ _ hP]
              rw [hb]
              simp [lastDecoded, hdec]
            · rw [hhtml]; exact hh
        · by_cases hmime2 : mime = "text/html"
          · subst hmime2
            rw [if_neg (by decide)] at hparse
            simp only [if_true] at hparse
            cases hdec : base64UrlDecode dat with
            | none => rw [hdec] at hparse; exact absurd hparse (by simp)
            | some bytes =>
              rw [hdec] at hparse
              simp only [] at hparse
              obtain ⟨hP, hH, hb, hh⟩ := ih.2 parts hsz _ _ hparse
              have hplain : plainDatas (.mk "text/html" dat hs parts) =
                  plainDatasL parts := by simp [plainDatas]
              have hhtml : htmlDatas (.mk "text/html" dat hs parts) =
                  [dat] ++ htmlDatasL parts := by simp [htmlDatas]
              refine ⟨?_, ?_, ?_, ?_⟩
              · rw [hplain]; exact hP
              · rw [hhtml]
                intro d hd
                rcases List.mem_append.mp hd with hd | hd
                · simp only [List.mem_singleton] at hd
                  rw [hd, hdec]
                  rfl
                · exact hH d hd
              · rw [hplain]; exact hb
              · rw [hhtml, lastDecoded_append [dat] _ _ hH]
                rw [hh]
                simp [lastDecoded, hdec]
          · rw [if_neg hmime, if_neg hmime2] at hparse
            simp only [] at hparse
            obtain ⟨hP, hH, hb, hh⟩ := ih.2 parts hsz _ _ hparse
            have hplain : plainDatas (.mk mime dat hs parts) =
                plainDatasL parts := by simp [plainDatas, hmime]
            have hhtml : htmlDatas (.mk mime dat hs parts) =
                htmlDatasL parts := by simp [htmlDatas, hmime2]
            exact ⟨by rw [hplain]; exact hP, by rw [hhtml]; exact hH,
              by rw [hplain]; exact hb, by rw [hhtml]; exact hh⟩
    · intro ps hps e e' hparse
      cases ps with
      | nil =>
        unfold parseGmailParts at hparse
        simp only [Except.ok.injEq] at hparse
        subst hparse
        simp [plainDatasL, htmlDatasL, lastDecoded]
      | cons p rest =>
        have hszp : sizeOf p ≤ n := by simp at hps; omega
        have hszr : sizeOf rest ≤ n := by simp at hps; omega
        unfold parseGmailParts at hparse
        cases hpb : parseGmailBody p e with
        | error msg => rw [hpb] at hparse; exact absurd hparse (by simp)
        | ok e1 =>
          rw [hpb] at hparse
          simp only [] at hparse
          obtain ⟨hP1, hH1, hb1, hh1⟩ := ih.1 p hszp _ _ hpb
          obtain ⟨hP2, hH2, hb2, hh2⟩ := ih.2 rest hszr _ _ hparse
          have hplain : plainDatasL (p :: rest) =
              plainDatas p ++ plainDatasL rest := by simp [plainDatasL]
          have hhtml : htmlDatasL (p :: rest) =
              htmlDatas p ++ htmlDatasL rest := by simp [htmlDatasL]
          refine ⟨?_, ?_, ?_, ?_⟩
          · rw [hplain]
            intro d hd
            rcases List.mem_append.mp hd with hd | hd
            · exact hP1 d hd
            · exact hP2 d hd
          · rw [hhtml]
            intro d hd
            rcases List.mem_append.mp hd with hd | hd
            · exact hH1 d hd
            · exact hH2 d hd
          · rw [hplain, lastDecoded_append _ _ _ hP2, ← hb1, hb2]
          · rw [hhtml, lastDecoded_append _ _ _ hH2, ← hh1, hh2]

/-- C4 as amended.  For every MIME tree, a successful walk stores the
decoding of the LAST text/plain part found as the plain body and the
decoding of the LAST text/html part found as the HTML body: each later
part of a given MIME type replaces the stored body (nothing is
concatenated), and a field is left alone only when no part of its type
occurs. -/
theorem parseGmailBody_last_match_wins (p : MessagePart) (e e' : Email)
    (h : parseGmailBody p e = .ok e') :
    e'.body = (lastDecoded (plainDatas p)).getD e.body ∧
    e'.htmlBody = (lastDecoded (htmlDatas p)).getD e.htmlBody := by
  obtain ⟨_, _, hb, hh⟩ := (parseGmail_last_aux (sizeOf p)).1 p le_rfl e e' h
  exact ⟨hb, hh⟩

/-- Witness for the amended C4 at the two-plain-part tree: the stored
plain body is the decoding of the second (last) part. -/
theorem parseGmailBody_last_match_wins_witness :
    ({ Email.zero with body := "B" } : Email).body =
      (lastDecoded (plainDatas
        (.mk "multipart/alternative" "" []
          [.mk "text/plain" "QQ==" [] [],
           .mk "text/plain" "Qg==" [] []]))).getD Email.zero.body ∧
    ({ Email.zero with body := "B" } : Email).htmlBody =
      (lastDecoded (htmlDatas
        (.mk "multipart/alternative" "" []
          [.mk "text/plain" "QQ==" [] [],
           .mk "text/plain" "Qg==" [] []]))).getD Email.zero.htmlBody :=
  parseGmailBody_last_match_wins
    (.mk "multipart/alternative" "" []
      [.mk "text/plain" "QQ==" [] [], .mk "text/plain" "Qg==" [] []])
    Email.zero { Email.zero with body := "B" } (by rfl)

/-! ## Claim C5: per-message failure handling in fetchGmailEmails -/

/-- Lookup in the lowercased-header map parseGmailMessage builds (later
duplicate header names overwrite earlier ones; a missing key reads as the
empty string). -/
def headerVal (hs : List (String × String)) (key : String) : String :=
  (hs.foldl (fun acc p => if lowerStr p.1 = key then some p.2 else acc)
    none).getD ""

/-- One full Gmail message: its id and payload part tree. -/
structure GmailMessage where
  id : String
  payload : MessagePart

/-- parseGmailMessage: reads subject/from/to/cc/bcc/date from the payload
headers (to split on commas unconditionally, cc and bcc only when
nonempty, the received time only when the date header is nonempty and
parses), then walks the payload for the bodies.  `dateParse` stands for
the external standard-library RFC1123Z time parser. -/
def parseGmailMessage (msg : GmailMessage) (now : Nat)
    (dateParse : String → Option Nat) : Except String Email :=
  let hs := msg.payload.headers
  let ccv := headerVal hs "cc"
  let bccv := headerVal hs "bcc"
  let datev := headerVal hs "date"
  let email : Email :=
    { Email.zero with
      createdAt := now, updatedAt := now
      subject := headerVal hs "subject"
      fromAddr := headerVal hs "from"
      toRecips := (headerVal hs "to").splitOn ","
      cc := if ccv ≠ "" then ccv.splitOn "," else []
      bcc := if bccv ≠ "" then bccv.splitOn "," else []
      receivedAt :=
        if datev ≠ "" then
          match dateParse datev with
          | some t => t
          | none => 0
        else 0 }
  parseGmailBody msg.payload email

/-- fetchGmailEmails: walks the listed message ids; a message already
stored under the dedup key is skipped; otherwise the full message is
fetched (`getFull`, the Gmail API oracle), parsed, and inserted with the
account id and message id set — and any fetch or parse failure RETURNS
immediately with that message's error.  The result carries the emails
collection, the next fresh id and the error if one stopped the pass. -/
def fetchGmailEmails (account : Account) (refs : List String)
    (getFull : String → Option GmailMessage)
    (dateParse : String → Option Nat) (db : List Email) (now : Nat)
    (nextId : ObjectId) : List Email × ObjectId × Option String :=
  match refs with
  | [] => (db, nextId, none)
  | mid :: rest =>
    if emailExists db account.id mid then
      fetchGmailEmails account rest getFull dateParse db now nextId
    else
      match getFull mid with
      | none => (db, nextId, some ("failed to get message " ++ mid))
      | some msg =>
        match parseGmailMessage msg now dateParse with
        | .error _ => (db, nextId, some ("failed to parse message " ++ mid))
        | .ok email =>
          fetchGmailEmails account rest getFull dateParse
            (createEmail db now nextId
              { email with accountID := account.id, messageID := mid })
            now (nextId + 1)

/-- A concrete well-formed one-part plain message. -/
def exGoodMsg : GmailMessage :=
  { id := "good"
    payload := .mk "text/plain" "QQ==" [("From", "x@y.com")] [] }

/-- A Gmail API oracle that fails on message bad and returns the
well-formed message for good. -/
def exGetFull (mid : String) : Option GmailMessage :=
  if mid = "good" then some exGoodMsg else none

/-- C5 counterexample.  A batch of two messages whose first fails to
fetch: the pass returns that error at once with the store still empty —
the second, well-formed message is never processed or persisted, so one
failing message does abort the rest of the batch. -/
theorem fetchGmail_first_error_aborts_batch :
    fetchGmailEmails
        { id := 7, provider := "gmail", email := "u@gmail.com"
          accessToken := "a", refreshToken := "r", tokenExpiry := 50
          createdAt := 1, updatedAt := 1 }
        ["bad", "good"] exGetFull (fun _ => none) [] 5 1 =
      ([], 1, some "failed to get message bad") := by
  rfl

/-- Splitting the listed ids: the pass over a concatenation runs the
first segment, and continues into the second only when the first
finished without error. -/
theorem fetchGmail_append (account : Account)
    (getFull : String → Option GmailMessage)
    (dateParse : String → Option Nat) (now : Nat) :
    ∀ (l1 l2 : List String) (db : List Email) (nid : ObjectId),
      fetchGmailEmails account (l1 ++ l2) getFull dateParse db now nid =
        (match fetchGmailEmails account l1 getFull dateParse db now nid with
         | (db1, nid1, none) =>
           fetchGmailEmails account l2 getFull dateParse db1 now nid1
         | (db1, nid1, some msg) => (db1, nid1, some msg)) := by
  intro l1
  induction l1 with
  | nil => intro l2 db nid; rfl
  | cons mid rest ih =>
    intro l2 db nid
    rw [List.cons_append]
    cases hex : emailExists db account.id mid with
    | true =>
      simp only [fetchGmailEmails, hex, if_true]
      exact ih l2 db nid
    | false =>
      cases hgf : getFull mid with
      | none => simp [fetchGmailEmails, hex, hgf]
      | some msg =>
        cases hpm : parseGmailMessage msg now dateParse with
        | error m => simp [fetchGmailEmails, hex, hgf, hpm]
        | ok email =>
          simp only [fetchGmailEmails, hex, Bool.false_eq_true, if_false,
            hgf, hpm]
          exact ih l2 _ _

/-- C5 as amended.  A fetch failure on one message aborts the pass: the
failing message's error is returned immediately, so the ids after it are
never examined (the result is the same for every tail), while everything
the pass stored before the failure stays stored (the pass over a
concatenation equals the pass over the first segment, continued into the
second only on success). -/
theorem fetchGmail_error_aborts (account : Account)
    (getFull : String → Option GmailMessage)
    (dateParse : String → Option Nat) (now : Nat) :
    (∀ (mid : String) (rest : List String) (db : List Email)
        (nid : ObjectId),
      emailExists db account.id mid = false → getFull mid = none →
      fetchGmailEmails account (mid :: rest) getFull dateParse db now nid =
        (db, nid, some ("failed to get message " ++ mid))) ∧
    (∀ (l1 l2 : List String) (db : List Email) (nid : ObjectId),
      fetchGmailEmails account (l1 ++ l2) getFull dateParse db now nid =
        (match fetchGmailEmails account l1 getFull dateParse db now nid with
         | (db1, nid1, none) =>
           fetchGmailEmails account l2 getFull dateParse db1 now nid1
         | (db1, nid1, some msg) => (db1, nid1, some msg))) := by
  constructor
  · intro mid rest db nid hex hgf
    simp [fetchGmailEmails, hex, hgf]
  · exact fetchGmail_append account getFull dateParse now

/-- Witness for the amended C5: the failing head message aborts with the
store unchanged, for the concrete two-message batch; and the split
property at a concrete partition. -/
theorem fetchGmail_error_aborts_witness :
    (fetchGmailEmails
        { id := 7, provider := "gmail", email := "u@gmail.com"
          accessToken := "a", refreshToken := "r", tokenExpiry := 50
          createdAt := 1, updatedAt := 1 }
        ("bad" :: ["good"]) exGetFull (fun _ => none) [] 5 1 =
      ([], 1, some ("failed to get message " ++ "bad"))) ∧
    (fetchGmailEmails
        { id := 7, provider := "gmail", email := "u@gmail.com"
          accessToken := "a", refreshToken := "r", tokenExpiry := 50
          createdAt := 1, updatedAt := 1 }
        (["good"] ++ ["bad"]) exGetFull (fun _ => none) [] 5 1 =
      (match fetchGmailEmails
          { id := 7, provider := "gmail", email := "u@gmail.com"
            accessToken := "a", refreshToken := "r", tokenExpiry := 50
            createdAt := 1, updatedAt := 1 }
          ["good"] exGetFull (fun _ => none) [] 5 1 with
       | (db1, nid1, none) =>
         fetchGmailEmails
           { id := 7, provider := "gmail", email := "u@gmail.com"
             accessToken := "a", refreshToken := "r", tokenExpiry := 50
             createdAt := 1, updatedAt := 1 }
           ["bad"] exGetFull (fun _ => none) db1 5 nid1
       | (db1, nid1, some msg) => (db1, nid1, some msg))) :=
  ⟨(fetchGmail_error_aborts
      { id := 7, provider := "gmail", email := "u@gmail.com"
        accessToken := "a", refreshToken := "r", tokenExpiry := 50
        createdAt := 1, updatedAt := 1 }
      exGetFull (fun _ => none) 5).1 "bad" ["good"] [] 1 (by decide) (by rfl),
   (fetchGmail_error_aborts
      { id := 7, provider := "gmail", email := "u@gmail.com"
        accessToken := "a", refreshToken := "r", tokenExpiry := 50
        createdAt := 1, updatedAt := 1 }
      exGetFull (fun _ => none) 5).2 ["good"] ["bad"] [] 1⟩

end EmailHarvester
